import Mathlib

/-!
Verification development for the `proto-to-insomnia` generator
(`protoc-gen-insomniaenv/main.go` and `config.go`).

The Go program is shallowly embedded below.  Pure helpers become Lean
functions; the global `math/rand` generator becomes an explicitly threaded
`RandState`; fallible steps return `Except`.  External collaborators that the
repository only calls into (the `typemap` registry, `encoding/json` decoding,
`stringutils.CamelCase`, comment lookup, `time` formatting and float
formatting) are supplied as fields of an `Env` record, mirroring the spec's
"schema provider / configuration decoding are out of scope, specified only at
their interface" stance.
-/

namespace ProtoToInsomnia

/-! ### Descriptor data model (mirrors `protoc-gen-go/descriptor` as used) -/

/-- Field types of `descriptor.FieldDescriptorProto_Type` that the program
inspects.  `TYPE_GROUP` is included so the switch's fall-through default
(`"PARSE_ERROR"`) is representable. -/
inductive FieldType where
  | TYPE_DOUBLE | TYPE_FLOAT | TYPE_INT64 | TYPE_UINT64 | TYPE_INT32
  | TYPE_FIXED64 | TYPE_FIXED32 | TYPE_BOOL | TYPE_STRING | TYPE_GROUP
  | TYPE_MESSAGE | TYPE_BYTES | TYPE_UINT32 | TYPE_ENUM
  | TYPE_SFIXED32 | TYPE_SFIXED64 | TYPE_SINT32 | TYPE_SINT64
deriving DecidableEq, Repr

/-- Field labels of `descriptor.FieldDescriptorProto_Label`. -/
inductive FieldLabel where
  | LABEL_OPTIONAL | LABEL_REQUIRED | LABEL_REPEATED
deriving DecidableEq, Repr

/-- Mirrors the parts of `descriptor.FieldDescriptorProto` read by the code:
`Name`, `JsonName`, `Type`, `TypeName` (unset for scalar fields, so an
`Option`; `GetTypeName` yields `""` then) and `Label`. -/
structure FieldDescriptorProto where
  name : String
  jsonName : String
  type : FieldType
  typeName : Option String
  label : FieldLabel
deriving DecidableEq, Repr

/-- Models `field.GetTypeName()`: the empty string when `TypeName` is unset. -/
def FieldDescriptorProto.getTypeName (f : FieldDescriptorProto) : String :=
  f.typeName.getD ""

/-- Mirrors `descriptor.EnumValueDescriptorProto` (only `Name` is read). -/
structure EnumValueDescriptorProto where
  name : String
deriving DecidableEq, Repr

/-- Mirrors `descriptor.EnumDescriptorProto` (`Name`, `Value`). -/
structure EnumDescriptorProto where
  name : String
  value : List EnumValueDescriptorProto
deriving DecidableEq, Repr

/-- Mirrors `descriptor.DescriptorProto` (`Name`, `Field`, `EnumType`). -/
structure DescriptorProto where
  name : String
  field : List FieldDescriptorProto
  enumType : List EnumDescriptorProto
deriving DecidableEq, Repr

/-- Mirrors `descriptor.MethodDescriptorProto` (`Name`, `InputType`). -/
structure MethodDescriptorProto where
  name : String
  inputType : String
deriving DecidableEq, Repr

/-- Mirrors `descriptor.ServiceDescriptorProto` (`Name`, `Method`). -/
structure ServiceDescriptorProto where
  name : String
  method : List MethodDescriptorProto
deriving DecidableEq, Repr

/-- Mirrors `descriptor.FileDescriptorProto` (`Name`, `Package`, `Service`,
`EnumType`). -/
structure FileDescriptorProto where
  name : String
  package : String
  service : List ServiceDescriptorProto
  enumType : List EnumDescriptorProto
deriving DecidableEq, Repr

/-- Mirrors `typemap.MessageDefinition`: the message's descriptor together
with the file that declares it (the two parts the program reads). -/
structure MessageDefinition where
  descriptor : DescriptorProto
  file : FileDescriptorProto
deriving DecidableEq, Repr

/-- Mirrors `proto_to_insomnia.Config` from `config.go`.  Go stores
`Environments` as `map[string]string`; it is modelled as an association list
whose keys are pairwise distinct (JSON object keys collapse into distinct map
keys) and whose order stands for one arbitrary Go map iteration order. -/
structure Config where
  environments : List (String × String)
deriving DecidableEq, Repr

/-! ### Model of the global `math/rand` generator -/

/-- Deterministic model of the global `math/rand` source after `rand.Seed`:
the values drawn are a fixed function of the seed and of how many draws have
happened since seeding.  Only determinism of the stream and the range
contracts of `Intn`/`Int63n` matter to the program, never the concrete
numbers, so the mixing function below is an arbitrary concrete stand-in. -/
structure RandState where
  seed : Int
  idx : Nat
deriving DecidableEq, Repr

/-- Models `rand.Seed(seed)`: the stream restarts, determined by the seed
alone. -/
def mkRand (seed : Int) : RandState := ⟨seed, 0⟩

/-- Models `math/rand` at program start (the source's documented default
seed 1, never observable here because every use is preceded by `rand.Seed`). -/
def initialRandState : RandState := mkRand 1

/-- One raw draw from the modelled source. -/
def randNext (r : RandState) : Nat × RandState :=
  ((r.seed.natAbs + (r.idx + 1) * 2654435761) % 4294967296, ⟨r.seed, r.idx + 1⟩)

/-- Models `rand.Intn n` (uniform in `[0, n)` for `n > 0`; Go panics for
`n ≤ 0`, a case the program only reaches for an enum with no values, which
protobuf forbids). -/
def randIntn (n : Nat) (r : RandState) : Nat × RandState :=
  let (v, r') := randNext r
  (v % n, r')

/-- Models `rand.Int63n n` (used only by `randomTimestamp`). -/
def randInt63n (n : Nat) (r : RandState) : Nat × RandState :=
  randIntn n r

/-! ### Small string helpers -/

/-- Models `strings.Repeat("\t", n)`. -/
def tabs (n : Nat) : String := String.mk (List.replicate n '\t')

/-- Models Go's `%03d` padding used by the Duration branch. -/
def pad3 (n : Nat) : String :=
  if n < 10 then "00" ++ toString n
  else if n < 100 then "0" ++ toString n
  else toString n

/-- Models Go `[]byte(s)`, the UTF-8 encoding of one character. -/
def charUtf8Bytes (c : Char) : List Nat :=
  let n := c.toNat
  if n < 128 then [n]
  else if n < 2048 then [192 + n / 64, 128 + n % 64]
  else if n < 65536 then [224 + n / 4096, 128 + (n / 64) % 64, 128 + n % 64]
  else [240 + n / 262144, 128 + (n / 4096) % 64, 128 + (n / 64) % 64, 128 + n % 64]

/-- Models Go `[]byte(s)` for a whole string. -/
def utf8Bytes (s : String) : List Nat :=
  s.data.flatMap charUtf8Bytes

/-! ### The per-method seed (`md5.New().Sum(name)[:8]`) -/

/-- Digest of the empty input under MD5, as bytes.  Models the state of the
fresh `crypto/md5` hash: `hash.Hash.Sum(b)` appends the digest of the data
written so far (here: nothing) to `b`, it does not hash `b` itself. -/
def md5EmptyDigest : List Nat :=
  [212, 29, 140, 217, 143, 0, 178, 4, 233, 128, 9, 152, 236, 248, 66, 126]

/-- Models `binary.BigEndian.Uint64` on an 8-byte slice. -/
def beUint64 (bs : List Nat) : Nat :=
  bs.foldl (fun a b => a * 256 + b) 0

/-- Models Go's `int64(u)` conversion of a `uint64` (two's complement). -/
def toInt64 (u : Nat) : Int :=
  if u < 9223372036854775808 then (u : Int) else (u : Int) - 18446744073709551616

/-- Models lines 182–183 of `main.go`:
`sum := md5HashFunc.Sum([]byte(method.GetName()))[:8]` followed by
`int64(binary.BigEndian.Uint64(sum))`. -/
def methodSeed (nameBytes : List Nat) : Int :=
  toInt64 (beUint64 ((nameBytes ++ md5EmptyDigest).take 8))

/-! ### Insomnia resource shapes -/

/-- Mirrors the embedded `Resource` struct. -/
structure Resource where
  type : String
  id : String
  parentId : Option String
  name : String
deriving DecidableEq, Repr

/-- Mirrors `Workspace`. -/
structure Workspace where
  resource : Resource
deriving DecidableEq, Repr

/-- Mirrors `Environment` (`Data` as an association list for
`map[string]string`). -/
structure Environment where
  resource : Resource
  data : List (String × String)
deriving DecidableEq, Repr

/-- Mirrors `RequestGroup`. -/
structure RequestGroup where
  resource : Resource
  environment : List (String × String)
deriving DecidableEq, Repr

/-- Mirrors `RequestBody`. -/
structure RequestBody where
  mimeType : String
  text : String
deriving DecidableEq, Repr

/-- Mirrors `Request`.  `Headers` is `[]map[string]string` in Go, modelled as
a list of association lists. -/
structure Request where
  resource : Resource
  method : String
  url : String
  headers : List (List (String × String))
  body : RequestBody
  description : String
deriving DecidableEq, Repr

/-- Models the `[]interface{}` resource list: the four concrete resource
shapes that are ever appended. -/
inductive ResourceItem where
  | workspace : Workspace → ResourceItem
  | environment : Environment → ResourceItem
  | requestGroup : RequestGroup → ResourceItem
  | request : Request → ResourceItem
deriving DecidableEq, Repr

/-- Base `Resource` part of any resource item. -/
def ResourceItem.resource : ResourceItem → Resource
  | .workspace w => w.resource
  | .environment e => e.resource
  | .requestGroup g => g.resource
  | .request q => q.resource

/-- Mirrors `InsomniaExport`. -/
structure InsomniaExport where
  exportType : String
  exportFormat : Nat
  exportSource : String
  resources : List ResourceItem
deriving DecidableEq, Repr

/-- Models `plugin.CodeGeneratorResponse_File`.  `json.MarshalIndent` of the
export is the serialization step the spec declares out of scope and
correctness-preserving, so the content is kept as the in-memory document. -/
structure RespFile where
  name : String
  content : InsomniaExport
deriving DecidableEq, Repr

/-- Models `plugin.CodeGeneratorRequest` (the fields `protogen` and the
program read). -/
structure CodeGeneratorRequest where
  fileToGenerate : List String
  protoFile : List FileDescriptorProto
  parameter : Option String
deriving DecidableEq, Repr

/-- External collaborators, per the spec's interface-only treatment: the
`typemap` registry lookup, method-comment lookup, `encoding/json` decoding of
the plugin parameter, `stringutils.CamelCase`, stdlib RFC-3339 time
formatting, and stdlib `%.4f` formatting of `1000*rand.Float32()-500` (the
argument is the raw generator draw). -/
structure Env where
  registry : String → Option MessageDefinition
  methodComments :
    FileDescriptorProto → ServiceDescriptorProto → MethodDescriptorProto → String
  parseConfig : String → Except String Config
  camelCase : String → String
  formatRFC3339 : Nat → String
  formatFloat4 : Nat → String

/-! ### Constants and free helpers of `main.go` -/

/-- Mirrors `protoFileExtension`. -/
def protoFileExtension : String := ".proto"

/-- Mirrors `maxDepth`. -/
def maxDepth : Nat := 25

/-- Mirrors `randomTimestamp`: `rand.Int63n(1000000000) + 94608000`, formatted
RFC-3339 by the (external) `time` package. -/
def randomTimestamp (env : Env) (r : RandState) : String × RandState :=
  let (t, r') := randInt63n 1000000000 r
  (env.formatRFC3339 (t + 94608000), r')

/-- Mirrors `generateRandomEnumValue`: a uniform `rand.Intn(len(values))`
index into the declared values.  `getD` stands for Go's direct index (Go
panics when the value list is empty, which protobuf rules out). -/
def generateRandomEnumValue (enum : EnumDescriptorProto) (r : RandState) :
    String × RandState :=
  let (i, r') := randIntn enum.value.length r
  ((enum.value.getD i ⟨"PANIC: index out of range"⟩).name, r')

/-- Mirrors `checkEnumMessageMatch`: the field's type name against
`.<package>.<MessageName>.<EnumName>` rebuilt from the current message. -/
def checkEnumMessageMatch (enum : EnumDescriptorProto)
    (messageDefinition : MessageDefinition) (field : FieldDescriptorProto) : Bool :=
  field.getTypeName =
    "." ++ messageDefinition.file.package ++ "." ++
      messageDefinition.descriptor.name ++ "." ++ enum.name

/-- Mirrors `checkEnumFileMatch`: the field's type name against
`.<package>.<EnumName>` rebuilt from the current file. -/
def checkEnumFileMatch (enum : EnumDescriptorProto)
    (file : FileDescriptorProto) (field : FieldDescriptorProto) : Bool :=
  field.getTypeName = "." ++ file.package ++ "." ++ enum.name

/-- Mirrors `generateMockEnumValue`: the first matching enum nested in the
current message wins, then the first matching file-level enum; with no match
the literal type name is quoted.  Go's early-`return` loops are `find?`. -/
def generateMockEnumValue (messageDefinition : MessageDefinition)
    (field : FieldDescriptorProto) (r : RandState) : String × RandState :=
  match messageDefinition.descriptor.enumType.find?
      (fun e => checkEnumMessageMatch e messageDefinition field) with
  | some e =>
    let (v, r') := generateRandomEnumValue e r
    ("\"" ++ v ++ "\"", r')
  | none =>
    match messageDefinition.file.enumType.find?
        (fun e => checkEnumFileMatch e messageDefinition.file field) with
    | some e =>
      let (v, r') := generateRandomEnumValue e r
      ("\"" ++ v ++ "\"", r')
    | none => ("\"" ++ field.getTypeName ++ "\"", r)

/-- Mirrors `letterRunes` in `generateRandomString`. -/
def letterRunes : List Char :=
  "abcdefghijklmnopqrstuvwxyzABCDEFGHIJKLMNOPQRSTUVWXYZ".data

/-- Character loop of `generateRandomString`, in index order. -/
def randomLetters : Nat → RandState → List Char × RandState
  | 0, r => ([], r)
  | n + 1, r =>
    let (i, r1) := randIntn letterRunes.length r
    let (cs, r2) := randomLetters n r1
    (letterRunes.getD i 'a' :: cs, r2)

/-- Mirrors `generateRandomString`. -/
def generateRandomString (n : Nat) (r : RandState) : String × RandState :=
  let (cs, r') := randomLetters n r
  (String.mk cs, r')

/-! ### The mock-value synthesizer (`generateMockMessage` / `generateMockField`)

The Go functions recurse mutually; `generateMockMessage`'s field loop and the
3-iteration repeated-element loop become the helpers `mockFields` and
`repeatElems`.  Termination is exactly the code's own argument: the depth
guard in `generateMockField` stops recursion at `maxDepth`, and every
message-nesting step raises `depth` by 1. -/

mutual

/-- Mirrors `generateMockMessage`: brace-delimited object, fields in declared
order, closing brace indented at `depth`. -/
def generateMockMessage (env : Env) (md : MessageDefinition) (depth : Nat)
    (r : RandState) : String × RandState :=
  let (body, r') := mockFields env md md.descriptor.field depth r
  ("\x7b\n" ++ body ++ tabs depth ++ "\x7d", r')
termination_by (maxDepth + 1 - depth, 5 * md.descriptor.field.length + 6)
decreasing_by all_goals (simp_wf; (simp +arith [Prod.lex_def] <;> omega))

/-- Field loop of `generateMockMessage`.  `fields` is the remaining suffix of
the declared field list; Go's `idx != numFields-1` test is `rest ≠ []`. -/
def mockFields (env : Env) (md : MessageDefinition)
    (fields : List FieldDescriptorProto) (depth : Nat) (r : RandState) :
    String × RandState :=
  match fields with
  | [] => ("", r)
  | f :: rest =>
    if f.label = .LABEL_REPEATED then
      let head := tabs (depth + 1) ++ "\"" ++ f.jsonName ++ "\": [\n"
      let (elems, r1) := repeatElems env md f (depth + 1) 3 r
      let close :=
        if rest = [] then tabs (depth + 1) ++ "]\n"
        else tabs (depth + 1) ++ "],\n"
      let (tail, r2) := mockFields env md rest depth r1
      (head ++ elems ++ close ++ tail, r2)
    else
      let (v, r1) := generateMockField env md f depth r
      let sep := if rest = [] then "\n" else ",\n"
      let (tail, r2) := mockFields env md rest depth r1
      (tabs (depth + 1) ++ "\"" ++ f.jsonName ++ "\": " ++ v ++ sep ++ tail, r2)
termination_by (maxDepth + 1 - depth, 5 * fields.length + 5)
decreasing_by all_goals (simp_wf; (simp +arith [Prod.lex_def] <;> omega))

/-- Repeated-element loop (`for i := 0; i < 3; i++`).  `dd` is the element
depth `depth+1` from the enclosing loop; `n` counts the iterations left, so
Go's `i < 2` comma test is `n ≠ 1`. -/
def repeatElems (env : Env) (md : MessageDefinition)
    (f : FieldDescriptorProto) (dd : Nat) (n : Nat) (r : RandState) :
    String × RandState :=
  match n with
  | 0 => ("", r)
  | k + 1 =>
    let (v, r1) := generateMockField env md f dd r
    let sep := if k = 0 then "\n" else ",\n"
    let (tail, r2) := repeatElems env md f dd k r1
    (tabs (dd + 1) ++ v ++ sep ++ tail, r2)
termination_by (maxDepth + 1 - dd, n + 1)
decreasing_by all_goals (simp_wf; (simp +arith [Prod.lex_def] <;> omega))

/-- Mirrors `generateMockField`: depth guard first, then the well-known-type
overrides, then the type switch. -/
def generateMockField (env : Env) (md : MessageDefinition)
    (f : FieldDescriptorProto) (depth : Nat) (r : RandState) :
    String × RandState :=
  if h : maxDepth ≤ depth then
    ("Max request depth of " ++ toString maxDepth ++
      " reached. This may indicate some error with proto-to-insomnia parsing logic", r)
  else if f.getTypeName = ".google.protobuf.Timestamp" then
    let (t, r1) := randomTimestamp env r
    ("\"" ++ t ++ "\"", r1)
  else if f.getTypeName = ".google.protobuf.Duration" then
    let (a, r1) := randIntn 1000 r
    let (b, r2) := randIntn 100 r1
    ("\"" ++ toString a ++ "." ++ pad3 b ++ "s\"", r2)
  else if f.getTypeName = ".google.protobuf.Struct" then
    ("\x7b\"this field named " ++ f.name ++
      " contains\": \"a dynamically typed map.\", \"As input,\": \"you can pass any JSON object\"\x7d", r)
  else
    match f.type with
    | .TYPE_DOUBLE | .TYPE_FLOAT =>
      let (k, r1) := randNext r
      (env.formatFloat4 k, r1)
    | .TYPE_SFIXED32 | .TYPE_SFIXED64 | .TYPE_SINT32 | .TYPE_SINT64
    | .TYPE_INT64 | .TYPE_INT32 =>
      let (k, r1) := randIntn 1000 r
      (toString ((k : Int) - 500), r1)
    | .TYPE_FIXED64 | .TYPE_FIXED32 | .TYPE_UINT32 | .TYPE_UINT64 =>
      let (k, r1) := randIntn 1000 r
      (toString k, r1)
    | .TYPE_BOOL =>
      let (k, r1) := randNext r
      (if k % 2 = 0 then "false" else "true", r1)
    | .TYPE_STRING =>
      let (s, r1) := generateRandomString 10 r
      ("\"" ++ s ++ "\"", r1)
    | .TYPE_MESSAGE | .TYPE_BYTES =>
      match env.registry f.getTypeName with
      | none => ("\"Message " ++ f.getTypeName ++ " could not be found\"", r)
      | some md' => generateMockMessage env md' (depth + 1) r
    | .TYPE_ENUM => generateMockEnumValue md f r
    | _ => ("\"PARSE_ERROR\"", r)
termination_by (maxDepth + 1 - depth, 0)
decreasing_by all_goals (simp_wf; (simp +arith [Prod.lex_def] <;> omega))

end

/-! ### Resource-graph builder -/

/-- Final-element extension scan for `filepath.Ext`, over the reversed
character list. -/
def filepathExtAux (acc : List Char) : List Char → String
  | [] => ""
  | c :: rest =>
    if c = '/' then ""
    else if c = '.' then String.mk ('.' :: acc)
    else filepathExtAux (c :: acc) rest

/-- Models stdlib `filepath.Ext`: the suffix beginning at the final dot in the
final path element, empty when there is no dot. -/
def filepathExt (s : String) : String :=
  filepathExtAux [] s.data.reverse

/-- Mirrors `trimSuffix` from `main.go` (same as `strings.TrimSuffix`),
character-level. -/
def trimSuffix (s suffix : String) : String :=
  if suffix.data.isSuffixOf s.data then
    String.mk (s.data.take (s.data.length - suffix.data.length))
  else s

/-- ASCII model of stdlib `strings.Title`: upper-case each letter that does
not follow a letter.  Used only for the workspace display name. -/
def titleAux : Bool → List Char → List Char
  | _, [] => []
  | prevLetter, c :: rest =>
    (if c.isAlpha && !prevLetter then c.toUpper else c) :: titleAux c.isAlpha rest

/-- Models `strings.Title` as used by `getFileName`. -/
def titleCase (s : String) : String :=
  String.mk (titleAux false s.data)

/-- Mirrors `getFileName`. -/
def getFileName (s : String) : String :=
  titleCase (trimSuffix s protoFileExtension)

/-- Mirrors `pkgName`. -/
def pkgName (file : FileDescriptorProto) : String := file.package

/-- Mirrors `fullServiceName` (`stringutils.CamelCase` is external, supplied
by `Env`). -/
def fullServiceName (env : Env) (file : FileDescriptorProto)
    (service : ServiceDescriptorProto) : String :=
  let name := env.camelCase service.name
  if pkgName file ≠ "" then pkgName file ++ "." ++ name else name

/-- Mirrors `pathPrefix`. -/
def pathPrefix (env : Env) (file : FileDescriptorProto)
    (service : ServiceDescriptorProto) : String :=
  "/twirp/" ++ fullServiceName env file service ++ "/"

/-- Mirrors `pathFor`. -/
def pathFor (env : Env) (file : FileDescriptorProto)
    (service : ServiceDescriptorProto) (method : MethodDescriptorProto) : String :=
  pathPrefix env file service ++ env.camelCase method.name

/-- Mirrors `generateWorkspace`.  The ID concatenation is written
right-nested; Go's `fmt.Sprintf("workspace-%s-%s", …)` builds the same
string. -/
def generateWorkspace (file : FileDescriptorProto) : Workspace × String :=
  let id := "workspace-" ++ (file.name ++ ("-" ++ file.package))
  ({ resource :=
      { type := "workspace", id := id, parentId := none,
        name := getFileName file.name } }, id)

/-- Mirrors `generateEnvironment`.  `dec` is the external `json.Unmarshal`
into `proto_to_insomnia.Config`; a decode error is returned as-is (Go returns
`[]Environment{}, err`). -/
def generateEnvironment (dec : String → Except String Config)
    (workspaceID : String) (param : Option String) :
    Except String (List Environment) :=
  let baseEnvName := "BaseEnvironment"
  let base : Environment :=
    { resource :=
        { type := "environment", id := baseEnvName,
          parentId := some workspaceID, name := "Base" },
      data := [] }
  let cfgRes : Except String (List Environment) :=
    match param with
    | some p =>
      if 0 < p.length then
        match dec p with
        | .error e => .error e
        | .ok config =>
          .ok (config.environments.map (fun nu =>
            { resource :=
                { type := "environment", id := nu.1,
                  parentId := some baseEnvName, name := nu.1 },
              data := [("base_url", nu.2)] }))
      else .ok []
    | none => .ok []
  match cfgRes with
  | .error e => .error e
  | .ok cfgEnvs =>
    .ok (base :: (cfgEnvs ++
      [{ resource :=
           { type := "environment", id := "LocalhostHttps",
             parentId := some baseEnvName, name := "Localhost - Https" },
         data := [("base_url", "https://localhost:8000")] },
       { resource :=
           { type := "environment", id := "LocalhostHttp",
             parentId := some baseEnvName, name := "Localhost - Http" },
         data := [("base_url", "http://localhost:8000")] }]))

/-- Body synthesis for one method:
`e.registry.MessageDefinition(method.GetInputType())` then
`e.generateMockMessage(msg, 0)`.  A failed lookup would make the Go program
dereference a nil pointer inside `generateMockMessage`; the sentinel below
stands for that crash and is never reached for requests whose input types the
(protoc-resolved) registry knows. -/
def mockBody (env : Env) (inputType : String) (r : RandState) :
    String × RandState :=
  match env.registry inputType with
  | some msg => generateMockMessage env msg 0 r
  | none => ("PANIC: nil MessageDefinition", r)

/-- Method loop of `generateMethods`: seed from the method name, synthesize
the body, build the `Request`.  The generator state left over by one method is
threaded into the next, exactly as the shared global `math/rand` is in Go. -/
def methodLoop (env : Env) (file : FileDescriptorProto)
    (service : ServiceDescriptorProto) (requestGroupID : String) :
    List MethodDescriptorProto → RandState → List Request × RandState
  | [], r => ([], r)
  | m :: ms, r =>
    let r0 := mkRand (methodSeed (utf8Bytes m.name))
    let ob := mockBody env m.inputType r0
    let comment := env.methodComments file service m
    let req : Request :=
      { resource :=
          { type := "request",
            id := "request-" ++ (service.name ++ ("-" ++ m.name)),
            parentId := some requestGroupID,
            name := m.name },
        method := "POST",
        headers := [[("name", "Content-Type"), ("value", "application/json")]],
        url := "\x7b\x7b" ++ service.name ++ "\x7d\x7d" ++ m.name,
        body := { mimeType := "application/json", text := ob.1 },
        description := comment }
    let rest := methodLoop env file service requestGroupID ms ob.2
    (req :: rest.1, rest.2)

/-- Models `sort.SliceStable(requests, …ID < …ID)`: a stable sort under the
total preorder `ID ≤ ID` produces the same list. -/
def sortRequests (reqs : List Request) : List Request :=
  reqs.mergeSort (fun a b => decide (a.resource.id ≤ b.resource.id))

/-- Service loop of `generateMethods`: one request group per service followed
by that service's requests, sorted by ID. -/
def serviceLoop (env : Env) (workspaceID : String)
    (file : FileDescriptorProto) :
    List ServiceDescriptorProto → RandState → List ResourceItem × RandState
  | [], r => ([], r)
  | s :: ss, r =>
    let requestGroupID := "request_group-" ++ s.name
    let group : RequestGroup :=
      { resource :=
          { type := "request_group", id := requestGroupID,
            parentId := some workspaceID, name := s.name },
        environment :=
          [(s.name, "\x7b\x7b base_url \x7d\x7d" ++ pathPrefix env file s)] }
    let reqs := methodLoop env file s requestGroupID s.method r
    let sorted := sortRequests reqs.1
    let rest := serviceLoop env workspaceID file ss reqs.2
    (ResourceItem.requestGroup group :: (sorted.map ResourceItem.request ++ rest.1), rest.2)

/-- Mirrors `generateMethods`. -/
def generateMethods (env : Env) (workspaceID : String)
    (file : FileDescriptorProto) (r : RandState) :
    List ResourceItem × RandState :=
  serviceLoop env workspaceID file file.service r

/-- Mirrors `generate`: nothing at all for a service-less file, otherwise the
workspace, the environment subtree, the method resources, and the envelope.
`json.MarshalIndent` (the serialization step the spec scopes out) keeps the
document in memory. -/
def generate (env : Env) (file : FileDescriptorProto) (param : Option String)
    (r : RandState) : Except String (Option RespFile × RandState) :=
  if file.service.length = 0 then .ok (none, r)
  else
    let ws := generateWorkspace file
    match generateEnvironment env.parseConfig ws.2 param with
    | .error e => .error e
    | .ok envs =>
      let methods := generateMethods env ws.2 file r
      let resources :=
        ResourceItem.workspace ws.1 :: (envs.map ResourceItem.environment ++ methods.1)
      let insomniaExport : InsomniaExport :=
        { exportType := "export", exportFormat := 3,
          exportSource := "protoc-gen-insomniaenv", resources := resources }
      let fileWithoutPath := trimSuffix file.name (filepathExt file.name)
      .ok (some { name := fileWithoutPath ++ "-insomnia-env.json",
                  content := insomniaExport }, methods.2)

/-- Models the external `protogen.FilesToGenerate`: the descriptor of every
requested file name, an error when one is missing. -/
def filesToGenerate (req : CodeGeneratorRequest) :
    Except String (List FileDescriptorProto) :=
  req.fileToGenerate.mapM (fun n =>
    match req.protoFile.find? (fun f => f.name = n) with
    | some f => Except.ok f
    | none => Except.error ("no descriptor for generated file: " ++ n))

/-- File loop of `Generate`.  Go appends `respFile` unconditionally
(`resp.File = append(resp.File, respFile)`), so a nil result of `generate`
still becomes a (nil) entry of the response — kept here as the `Option`. -/
def generateLoop (env : Env) (param : Option String) :
    List FileDescriptorProto → RandState →
      Except String (List (Option RespFile) × RandState)
  | [], r => .ok ([], r)
  | f :: fs, r =>
    match generate env f param r with
    | .error e => .error e
    | .ok (respFile, r1) =>
      match generateLoop env param fs r1 with
      | .error e => .error e
      | .ok (rest, r2) => .ok (respFile :: rest, r2)

/-- Mirrors `Generate`. -/
def Generate (env : Env) (req : CodeGeneratorRequest) :
    Except String (List (Option RespFile)) :=
  match filesToGenerate req with
  | .error e => .error e
  | .ok files =>
    match generateLoop env req.parameter files initialRandState with
    | .error e => .error e
    | .ok (resp, _) => .ok resp

/-! ## Claim theorems -/

/-! ### C1 — per-method synthesis is deterministic and locally independent -/

/-- Claim C1: synthesizing a method's mock JSON body is deterministic and
locally independent.  In the method loop of `generateMethods`, every produced
request body equals `mockBody env m.inputType (mkRand (methodSeed …m.name…))`
— a function of the environment (registry) and the method alone, independent
of the incoming generator state `r`, of the surrounding service/file/group, and
of whatever other methods run before or after (second conjunct: the body of a
method `m` placed after an arbitrary prefix `pre` and before an arbitrary
suffix `post` is that same fixed string), because the generator is reseeded
from the method's own name immediately before the method's synthesis.
String equality in Lean is byte identity of the JSON text. -/
theorem claimC1 (env : Env) (file : FileDescriptorProto)
    (service : ServiceDescriptorProto) (gid : String)
    (ms : List MethodDescriptorProto) (r : RandState) :
    ((methodLoop env file service gid ms r).1).map (fun q => q.body.text) =
      ms.map (fun m =>
        (mockBody env m.inputType (mkRand (methodSeed (utf8Bytes m.name)))).1) ∧
    (∀ (pre post : List MethodDescriptorProto) (m : MethodDescriptorProto),
      (((methodLoop env file service gid (pre ++ m :: post) r).1).map
          (fun q => q.body.text))[pre.length]? =
        some (mockBody env m.inputType (mkRand (methodSeed (utf8Bytes m.name)))).1) := by
  have key : ∀ (ms : List MethodDescriptorProto) (r : RandState),
      ((methodLoop env file service gid ms r).1).map (fun q => q.body.text) =
        ms.map (fun m =>
          (mockBody env m.inputType (mkRand (methodSeed (utf8Bytes m.name)))).1) := by
    intro ms
    induction ms with
    | nil => intro r; rfl
    | cons m ms ih => intro r; simp [methodLoop, ih]
  refine ⟨key ms r, ?_⟩
  intro pre post m
  rw [key]
  rw [List.map_append]
  rw [List.getElem?_append_right (by simp)]
  simp

/-! ### C2 — synthesis terminates; the depth ceiling stops recursion -/

/-- Claim C2: mock synthesis terminates on self-referential message schemas.
Once `depth` reaches the ceiling `maxDepth = 25`, `generateMockField` returns
the diagnostic placeholder string instead of recursing (first conjunct), and
each message-nesting step below the ceiling recurses with `depth + 1` (second
conjunct).  Totality of `generateMockMessage` itself holds by construction:
the definition is accepted by well-founded recursion on exactly this
depth-ceiling argument, so it never loops indefinitely. -/
theorem claimC2 (env : Env) (md : MessageDefinition) (f : FieldDescriptorProto)
    (depth : Nat) (r : RandState) :
    (maxDepth ≤ depth →
      generateMockField env md f depth r =
        ("Max request depth of " ++ toString maxDepth ++
          " reached. This may indicate some error with proto-to-insomnia parsing logic", r)) ∧
    (∀ md', depth < maxDepth → f.type = .TYPE_MESSAGE →
      f.getTypeName ≠ ".google.protobuf.Timestamp" →
      f.getTypeName ≠ ".google.protobuf.Duration" →
      f.getTypeName ≠ ".google.protobuf.Struct" →
      env.registry f.getTypeName = some md' →
      generateMockField env md f depth r =
        generateMockMessage env md' (depth + 1) r) := by
  constructor
  · intro h
    unfold generateMockField
    simp [h]
  · intro md' hd ht h1 h2 h3 hr
    unfold generateMockField
    simp [Nat.not_le.mpr hd, h1, h2, h3, ht, hr]

/-- Self-referential message used by the C2 witness. -/
def mdC2 : MessageDefinition :=
  { descriptor :=
      { name := "Node",
        field :=
          [{ name := "next", jsonName := "next", type := .TYPE_MESSAGE,
             typeName := some ".pkg.Node", label := .LABEL_OPTIONAL }],
        enumType := [] },
    file := { name := "t.proto", package := "pkg", service := [], enumType := [] } }

/-- Message-typed field of `mdC2` referencing `mdC2` itself. -/
def fC2 : FieldDescriptorProto :=
  { name := "next", jsonName := "next", type := .TYPE_MESSAGE,
    typeName := some ".pkg.Node", label := .LABEL_OPTIONAL }

/-- Environment whose registry resolves the self-referential `mdC2`. -/
def envC2 : Env :=
  { registry := fun s => if s = ".pkg.Node" then some mdC2 else none,
    methodComments := fun _ _ _ => "",
    parseConfig := fun _ => .error "unused",
    camelCase := fun s => s,
    formatRFC3339 := fun _ => "",
    formatFloat4 := fun _ => "" }

/-- Witness for C2 at a concrete self-referential schema: the guard fires at
depth 25, and below the ceiling the nesting step is `depth + 1`. -/
theorem claimC2_witness :
    (maxDepth ≤ 25 ∧
      generateMockField envC2 mdC2 fC2 25 (mkRand 0) =
        ("Max request depth of " ++ toString maxDepth ++
          " reached. This may indicate some error with proto-to-insomnia parsing logic", mkRand 0)) ∧
    (3 < maxDepth ∧
      generateMockField envC2 mdC2 fC2 3 (mkRand 0) =
        generateMockMessage envC2 mdC2 4 (mkRand 0)) :=
  ⟨⟨by decide,
    (claimC2 envC2 mdC2 fC2 25 (mkRand 0)).1 (by decide)⟩,
   ⟨by decide,
    (claimC2 envC2 mdC2 fC2 3 (mkRand 0)).2 mdC2 (by decide) rfl
      (by decide) (by decide) (by decide) rfl⟩⟩

/-! ### C3 — a service-less file: no document, but the response still gets an
entry -/

/-- Service-less file used by the C3 theorem. -/
def fileC3 : FileDescriptorProto :=
  { name := "empty.proto", package := "pkg", service := [], enumType := [] }

/-- Plugin request generating only `fileC3`. -/
def reqC3 : CodeGeneratorRequest :=
  { fileToGenerate := ["empty.proto"], protoFile := [fileC3], parameter := none }

/-- Environment for the C3 theorem (nothing of it is reached). -/
def envC3 : Env :=
  { registry := fun _ => none,
    methodComments := fun _ _ _ => "",
    parseConfig := fun _ => .error "unused",
    camelCase := fun s => s,
    formatRFC3339 := fun _ => "",
    formatFloat4 := fun _ => "" }

/-- Claim C3: for a schema file with zero services, `generate` indeed produces
no document (first conjunct) — but the overall `Generate` loop still appends
that nil result to the response, so the response's file list has one entry
(Go's nil `*CodeGeneratorResponse_File`, here `none`) for the file rather
than no entry (second and third conjuncts). -/
theorem claimC3 :
    generate envC3 fileC3 none initialRandState = .ok (none, initialRandState) ∧
    Generate envC3 reqC3 = .ok [none] ∧
    ([none] : List (Option RespFile)) ≠ [] := by
  refine ⟨rfl, rfl, by decide⟩

/-! ### C5 — repeated fields synthesize exactly 3 elements -/

/-- Claim C5: for a repeated field (any type), the synthesized value is a JSON
array of exactly 3 elements, each produced by the singular synthesis rule
`generateMockField` for the field's type at `depth + 1` (the three successive
generator states `r`, `e1.2`, `e2.2` show the three successive draws), with
the trailing comma omitted after the last element and — via the
`if rest = []` close — after the last field of the enclosing object. -/
theorem claimC5 (env : Env) (md : MessageDefinition) (f : FieldDescriptorProto)
    (rest : List FieldDescriptorProto) (depth : Nat) (r : RandState)
    (h : f.label = .LABEL_REPEATED) :
    mockFields env md (f :: rest) depth r =
      (let e1 := generateMockField env md f (depth + 1) r
       let e2 := generateMockField env md f (depth + 1) e1.2
       let e3 := generateMockField env md f (depth + 1) e2.2
       let tl := mockFields env md rest depth e3.2
       (tabs (depth + 1) ++ "\"" ++ f.jsonName ++ "\": [\n" ++
          (tabs (depth + 2) ++ e1.1 ++ ",\n" ++
           (tabs (depth + 2) ++ e2.1 ++ ",\n" ++
            (tabs (depth + 2) ++ e3.1 ++ "\n"))) ++
          ((if rest = [] then tabs (depth + 1) ++ "]\n"
            else tabs (depth + 1) ++ "],\n") ++ tl.1),
        tl.2)) := by
  conv_lhs => unfold mockFields
  simp only [h, if_pos, reduceIte]
  simp [repeatElems, String.append_assoc]

/-- Repeated string field used by the C5 witness. -/
def fC5 : FieldDescriptorProto :=
  { name := "tags", jsonName := "tags", type := .TYPE_STRING,
    typeName := none, label := .LABEL_REPEATED }

/-- Message used by the C5 witness. -/
def mdC5 : MessageDefinition :=
  { descriptor := { name := "Tagged", field := [fC5], enumType := [] },
    file := { name := "g.proto", package := "pkg", service := [], enumType := [] } }

/-- Environment for the C5 witness. -/
def envC5 : Env :=
  { registry := fun _ => none,
    methodComments := fun _ _ _ => "",
    parseConfig := fun _ => .error "unused",
    camelCase := fun s => s,
    formatRFC3339 := fun _ => "",
    formatFloat4 := fun _ => "" }

/-- Witness for C5 at a concrete repeated field. -/
theorem claimC5_witness :
    fC5.label = .LABEL_REPEATED ∧
    mockFields envC5 mdC5 [fC5] 0 (mkRand 7) =
      (let e1 := generateMockField envC5 mdC5 fC5 1 (mkRand 7)
       let e2 := generateMockField envC5 mdC5 fC5 1 e1.2
       let e3 := generateMockField envC5 mdC5 fC5 1 e2.2
       let tl := mockFields envC5 mdC5 [] 0 e3.2
       (tabs 1 ++ "\"" ++ fC5.jsonName ++ "\": [\n" ++
          (tabs 2 ++ e1.1 ++ ",\n" ++
           (tabs 2 ++ e2.1 ++ ",\n" ++
            (tabs 2 ++ e3.1 ++ "\n"))) ++
          ((if ([] : List FieldDescriptorProto) = [] then tabs 1 ++ "]\n"
            else tabs 1 ++ "],\n") ++ tl.1),
        tl.2)) :=
  ⟨rfl, claimC5 envC5 mdC5 fC5 [] 0 (mkRand 7) rfl⟩

/-! ### C7 — enum resolution scopes -/

/-- Claim C7: an enum-typed field is resolved against exactly two scopes in
order.  If some enum nested in the current message is the first to satisfy
`checkEnumMessageMatch` (the reconstructed `.<package>.<MessageName>.<EnumName>`
equals the field's type name), one of its declared value names is sampled with
`rand.Intn(len(values))` — the emitted name sits at index `draw mod length`,
uniform for a uniform source (first conjunct).  Only when no nested enum
matches is the file's top-level enum list consulted through
`checkEnumFileMatch` (`.<package>.<EnumName>`, second conjunct).  When neither
scope matches, the literal field type name is emitted as a quoted placeholder
string rather than failing (third conjunct). -/
theorem claimC7 (md : MessageDefinition) (f : FieldDescriptorProto) (r : RandState) :
    (∀ e, md.descriptor.enumType.find? (fun e' => checkEnumMessageMatch e' md f) = some e →
      ∀ h : 0 < e.value.length,
      generateMockEnumValue md f r =
        ("\"" ++ (e.value.get ⟨(randIntn e.value.length r).1,
            Nat.lt_of_lt_of_le (Nat.mod_lt _ h) (Nat.le_refl _)⟩).name ++ "\"",
          (randIntn e.value.length r).2)) ∧
    (md.descriptor.enumType.find? (fun e' => checkEnumMessageMatch e' md f) = none →
      ∀ e, md.file.enumType.find? (fun e' => checkEnumFileMatch e' md.file f) = some e →
      ∀ h : 0 < e.value.length,
      generateMockEnumValue md f r =
        ("\"" ++ (e.value.get ⟨(randIntn e.value.length r).1,
            Nat.lt_of_lt_of_le (Nat.mod_lt _ h) (Nat.le_refl _)⟩).name ++ "\"",
          (randIntn e.value.length r).2)) ∧
    (md.descriptor.enumType.find? (fun e' => checkEnumMessageMatch e' md f) = none →
      md.file.enumType.find? (fun e' => checkEnumFileMatch e' md.file f) = none →
      generateMockEnumValue md f r = ("\"" ++ f.getTypeName ++ "\"", r)) := by
  refine ⟨?_, ?_, ?_⟩
  · intro e he h
    have hlt : (randNext r).1 % e.value.length < e.value.length := Nat.mod_lt _ h
    unfold generateMockEnumValue
    rw [he]
    unfold generateRandomEnumValue
    simp [randIntn, List.getElem?_eq_getElem hlt]
  · intro hn e he h
    have hlt : (randNext r).1 % e.value.length < e.value.length := Nat.mod_lt _ h
    unfold generateMockEnumValue
    rw [hn, he]
    unfold generateRandomEnumValue
    simp [randIntn, List.getElem?_eq_getElem hlt]
  · intro hn hf
    unfold generateMockEnumValue
    rw [hn, hf]

/-- Enum nested in the C7 witness message. -/
def enumC7 : EnumDescriptorProto :=
  { name := "Color", value := [⟨"RED"⟩, ⟨"GREEN"⟩, ⟨"BLUE"⟩] }

/-- Enum-typed field resolved in the nested scope. -/
def fC7 : FieldDescriptorProto :=
  { name := "color", jsonName := "color", type := .TYPE_ENUM,
    typeName := some ".pkg.Shape.Color", label := .LABEL_OPTIONAL }

/-- Enum-typed field whose enum lives in neither scope. -/
def fC7b : FieldDescriptorProto :=
  { name := "hue", jsonName := "hue", type := .TYPE_ENUM,
    typeName := some ".elsewhere.Hue", label := .LABEL_OPTIONAL }

/-- Message used by the C7 witness. -/
def mdC7 : MessageDefinition :=
  { descriptor := { name := "Shape", field := [fC7, fC7b], enumType := [enumC7] },
    file := { name := "s.proto", package := "pkg", service := [], enumType := [] } }

/-- Witness for C7: the nested scope resolves `.pkg.Shape.Color`, and an enum
defined elsewhere degrades to the quoted literal type name. -/
theorem claimC7_witness :
    (mdC7.descriptor.enumType.find? (fun e' => checkEnumMessageMatch e' mdC7 fC7) = some enumC7 ∧
     0 < enumC7.value.length ∧
     generateMockEnumValue mdC7 fC7 (mkRand 5) =
       ("\"" ++ (enumC7.value.get ⟨(randIntn enumC7.value.length (mkRand 5)).1, by decide⟩).name ++ "\"",
         (randIntn enumC7.value.length (mkRand 5)).2)) ∧
    (mdC7.descriptor.enumType.find? (fun e' => checkEnumMessageMatch e' mdC7 fC7b) = none ∧
     mdC7.file.enumType.find? (fun e' => checkEnumFileMatch e' mdC7.file fC7b) = none ∧
     generateMockEnumValue mdC7 fC7b (mkRand 5) =
       ("\"" ++ fC7b.getTypeName ++ "\"", mkRand 5)) :=
  ⟨⟨by decide, by decide,
    (claimC7 mdC7 fC7 (mkRand 5)).1 enumC7 (by decide) (by decide)⟩,
   ⟨by decide, by decide,
    (claimC7 mdC7 fC7b (mkRand 5)).2.2 (by decide) (by decide)⟩⟩

/-! ### C8 — malformed configuration aborts generation (for files with
services) -/

/-- Claim C8, amended: for a file that declares at least one service, a
present, non-empty configuration parameter that the JSON decoder rejects
makes `generate` fail with exactly the decoder's error; no document — not
even a partial one — is produced for the file (`generate` returns only the
error, and the `Generate` loop stops without appending anything). -/
theorem claimC8 (env : Env) (file : FileDescriptorProto) (param : Option String)
    (r : RandState) (p e : String)
    (hs : file.service.length ≠ 0)
    (hp : param = some p) (hlen : 0 < p.length)
    (herr : env.parseConfig p = .error e) :
    generate env file param r = .error e := by
  unfold generate
  rw [if_neg hs]
  unfold generateEnvironment
  simp [hp, hlen, herr]

/-- Environment whose configuration decoder always fails, for C8. -/
def envC8 : Env :=
  { registry := fun _ => none,
    methodComments := fun _ _ _ => "",
    parseConfig := fun _ => .error "invalid character 'n' looking for beginning of value",
    camelCase := fun s => s,
    formatRFC3339 := fun _ => "",
    formatFloat4 := fun _ => "" }

/-- One-service file used by the C8 witness (methods are irrelevant: the
config is parsed before any synthesis). -/
def fileC8 : FileDescriptorProto :=
  { name := "svc.proto", package := "pkg",
    service := [{ name := "Svc", method := [] }], enumType := [] }

/-- Service-less file used by the C8 counterexample. -/
def fileC8b : FileDescriptorProto :=
  { name := "none.proto", package := "pkg", service := [], enumType := [] }

/-- Witness for the amended C8: a malformed parameter on a file with one
service propagates the decoder error. -/
theorem claimC8_witness :
    (fileC8.service.length ≠ 0 ∧ 0 < ("not json" : String).length ∧
     envC8.parseConfig "not json" =
       .error "invalid character 'n' looking for beginning of value") ∧
    generate envC8 fileC8 (some "not json") initialRandState =
      .error "invalid character 'n' looking for beginning of value" :=
  ⟨⟨by decide, by decide, rfl⟩,
   claimC8 envC8 fileC8 (some "not json") initialRandState "not json" _
     (by decide) rfl (by decide) rfl⟩

/-- Counterexample to C8 as stated: a file with zero services is skipped
before the configuration is ever parsed, so generation for it does not fail
even though the parameter is present, non-empty and malformed. -/
theorem claimC8_counterexample :
    envC8.parseConfig "not json" =
      .error "invalid character 'n' looking for beginning of value" ∧
    0 < ("not json" : String).length ∧
    generate envC8 fileC8b (some "not json") initialRandState =
      .ok (none, initialRandState) :=
  ⟨rfl, by decide, rfl⟩

/-! ### C9 — the seed never hashes the name; only its first 8 bytes matter -/

/-- Claim C9: `md5HashFunc.Sum(name)` appends the digest of the empty input to
the name without hashing the name, so the seed is the big-endian `int64` of
the first 8 bytes of `name ++ md5("")` — for a name of at least 8 bytes, of
the name's own first 8 bytes alone (first conjunct).  Consequently two
methods whose names share their first 8 bytes and whose input message
definitions are identical get byte-identical synthesized mock bodies (second
conjunct). -/
theorem claimC9 :
    (∀ b : List Nat, 8 ≤ b.length →
      methodSeed b = toInt64 (beUint64 (b.take 8))) ∧
    (∀ (env : Env) (t : String) (n1 n2 : String),
      8 ≤ (utf8Bytes n1).length →
      (utf8Bytes n1).take 8 = (utf8Bytes n2).take 8 →
      8 ≤ (utf8Bytes n2).length →
      (mockBody env t (mkRand (methodSeed (utf8Bytes n1)))).1 =
        (mockBody env t (mkRand (methodSeed (utf8Bytes n2)))).1) := by
  have key : ∀ b : List Nat, 8 ≤ b.length →
      methodSeed b = toInt64 (beUint64 (b.take 8)) := by
    intro b hb
    unfold methodSeed
    congr 2
    rw [List.take_append_of_le_length hb]
  refine ⟨key, ?_⟩
  intro env t n1 n2 h1 heq h2
  have : methodSeed (utf8Bytes n1) = methodSeed (utf8Bytes n2) := by
    rw [key _ h1, key _ h2, heq]
  rw [this]

/-- Environment for the C9 witness. -/
def envC9 : Env :=
  { registry := fun _ => none,
    methodComments := fun _ _ _ => "",
    parseConfig := fun _ => .error "unused",
    camelCase := fun s => s,
    formatRFC3339 := fun _ => "",
    formatFloat4 := fun _ => "" }

/-- Witness for C9: `GetUsersA` and `GetUsersB` agree on their first 8
bytes, so their mock bodies coincide. -/
theorem claimC9_witness :
    (8 ≤ (utf8Bytes "GetUsersA").length ∧
     (utf8Bytes "GetUsersA").take 8 = (utf8Bytes "GetUsersB").take 8 ∧
     8 ≤ (utf8Bytes "GetUsersB").length) ∧
    methodSeed (utf8Bytes "GetUsersA") =
      toInt64 (beUint64 ((utf8Bytes "GetUsersA").take 8)) ∧
    (mockBody envC9 ".pkg.In" (mkRand (methodSeed (utf8Bytes "GetUsersA")))).1 =
      (mockBody envC9 ".pkg.In" (mkRand (methodSeed (utf8Bytes "GetUsersB")))).1 :=
  ⟨⟨by decide, by decide, by decide⟩,
   claimC9.1 (utf8Bytes "GetUsersA") (by decide),
   claimC9.2 envC9 ".pkg.In" "GetUsersA" "GetUsersB"
     (by decide) (by decide) (by decide)⟩

/-! ### C10 — singular bytes fields -/

/-- Claim C10, amended: at every depth below the recursion ceiling, a singular
field of the opaque-bytes kind always emits the unresolved-message
placeholder with an empty type name (`"Message  could not be found"`), never
actual bytes data: a bytes field carries no type name, so the registry lookup
with `""` fails (no registered message has the empty fully-qualified name)
and the soft-failure branch is taken.  At the ceiling itself the generic
depth diagnostic of the guard takes precedence. -/
theorem claimC10 (env : Env) (md : MessageDefinition) (f : FieldDescriptorProto)
    (depth : Nat) (r : RandState)
    (hd : depth < maxDepth)
    (ht : f.type = .TYPE_BYTES)
    (hn : f.typeName = none)
    (hreg : env.registry "" = none) :
    generateMockField env md f depth r = ("\"Message  could not be found\"", r) := by
  have hgt : f.getTypeName = "" := by simp [FieldDescriptorProto.getTypeName, hn]
  unfold generateMockField
  rw [hgt]
  simp [Nat.not_le.mpr hd, ht, hgt, hreg]

/-- Singular bytes field used by C10. -/
def fC10 : FieldDescriptorProto :=
  { name := "payload", jsonName := "payload", type := .TYPE_BYTES,
    typeName := none, label := .LABEL_OPTIONAL }

/-- Message holding the bytes field for C10. -/
def mdC10 : MessageDefinition :=
  { descriptor := { name := "Blob", field := [fC10], enumType := [] },
    file := { name := "b.proto", package := "pkg", service := [], enumType := [] } }

/-- Environment for C10 (empty registry, in particular no entry for `""`). -/
def envC10 : Env :=
  { registry := fun _ => none,
    methodComments := fun _ _ _ => "",
    parseConfig := fun _ => .error "unused",
    camelCase := fun s => s,
    formatRFC3339 := fun _ => "",
    formatFloat4 := fun _ => "" }

/-- Counterexample to C10 as stated ("always"): at depth 25 — reachable by
nesting a bytes field 25 message levels deep, e.g. inside a self-referential
message — the same singular bytes field yields the depth diagnostic, not the
unresolved-message placeholder. -/
theorem claimC10_counterexample :
    generateMockField envC10 mdC10 fC10 25 (mkRand 0) =
      ("Max request depth of 25 reached. This may indicate some error with proto-to-insomnia parsing logic",
        mkRand 0) ∧
    ("Max request depth of 25 reached. This may indicate some error with proto-to-insomnia parsing logic" : String) ≠
      "\"Message  could not be found\"" := by
  constructor
  · unfold generateMockField
    simp [maxDepth]
    rfl
  · decide

/-- Witness for the amended C10 below the ceiling. -/
theorem claimC10_witness :
    (3 < maxDepth ∧ fC10.type = .TYPE_BYTES ∧ fC10.typeName = none ∧
      envC10.registry "" = none) ∧
    generateMockField envC10 mdC10 fC10 3 (mkRand 0) =
      ("\"Message  could not be found\"", mkRand 0) :=
  ⟨⟨by decide, rfl, rfl, rfl⟩,
   claimC10 envC10 mdC10 fC10 3 (mkRand 0) (by decide) rfl rfl rfl⟩

/-! ### C6 — requests are sorted by ID within each request group -/

/-- Requests of an output resource list lying in the request group `gid`
(the resources whose `parentId` is that group's ID). -/
def requestsOfGroup (items : List ResourceItem) (gid : String) : List Request :=
  items.filterMap (fun it =>
    match it with
    | .request q => if q.resource.parentId = some gid then some q else none
    | _ => none)

/-- String concatenation cancels on the left. -/
theorem strAppend_left_cancel {p a b : String} (h : p ++ a = p ++ b) : a = b := by
  rw [String.ext_iff, String.data_append, String.data_append] at h
  exact String.ext (List.append_cancel_left h)

/-- Every request built by the method loop is parented to its request group. -/
theorem methodLoop_parentId (env : Env) (file : FileDescriptorProto)
    (s : ServiceDescriptorProto) (gid : String)
    (ms : List MethodDescriptorProto) (r : RandState) :
    ∀ q ∈ (methodLoop env file s gid ms r).1, q.resource.parentId = some gid := by
  induction ms generalizing r with
  | nil => intro q hq; simp [methodLoop] at hq
  | cons m ms ih =>
    intro q hq
    simp only [methodLoop, List.mem_cons] at hq
    rcases hq with rfl | hq
    · rfl
    · exact ih _ q hq

/-- The stable sort modelling `sort.SliceStable` permutes the requests. -/
theorem sortRequests_perm (reqs : List Request) : (sortRequests reqs).Perm reqs :=
  List.mergeSort_perm reqs _

/-- The stable sort modelling `sort.SliceStable` sorts by request ID. -/
theorem sortRequests_sorted (reqs : List Request) :
    List.Pairwise (fun a b => a.resource.id ≤ b.resource.id) (sortRequests reqs) := by
  have h : (List.mergeSort reqs
      (fun a b => decide (a.resource.id ≤ b.resource.id))).Pairwise
        (fun a b => (decide (a.resource.id ≤ b.resource.id)) = true) :=
    List.sorted_mergeSort
      (fun a b c h1 h2 => by
        simp only [decide_eq_true_eq] at *
        exact le_trans h1 h2)
      (fun a b => by
        simp only [Bool.or_eq_true, decide_eq_true_eq]
        exact le_total _ _)
      reqs
  exact h.imp (by simp)

/-- The group filter distributes over list append. -/
theorem requestsOfGroup_append (a b : List ResourceItem) (g : String) :
    requestsOfGroup (a ++ b) g = requestsOfGroup a g ++ requestsOfGroup b g := by
  unfold requestsOfGroup
  exact List.filterMap_append a b _

/-- A request-group item itself is not a request. -/
theorem requestsOfGroup_cons_group (x : RequestGroup) (l : List ResourceItem)
    (g : String) :
    requestsOfGroup (ResourceItem.requestGroup x :: l) g = requestsOfGroup l g := by
  simp [requestsOfGroup, List.filterMap_cons]

/-- Requests all parented to `g` survive the group filter unchanged. -/
theorem requestsOfGroup_requests_all (l : List Request) (g : String)
    (h : ∀ q ∈ l, q.resource.parentId = some g) :
    requestsOfGroup (l.map ResourceItem.request) g = l := by
  induction l with
  | nil => rfl
  | cons q l ih =>
    simp only [List.map_cons, requestsOfGroup, List.filterMap_cons] at *
    rw [if_pos (h q (by simp))]
    rw [ih (fun q hq => h q (by simp [hq]))]

/-- Requests parented elsewhere are all dropped by the group filter. -/
theorem requestsOfGroup_requests_none (l : List Request) (g : String)
    (h : ∀ q ∈ l, q.resource.parentId ≠ some g) :
    requestsOfGroup (l.map ResourceItem.request) g = [] := by
  induction l with
  | nil => rfl
  | cons q l ih =>
    simp only [List.map_cons, requestsOfGroup, List.filterMap_cons] at *
    rw [if_neg (h q (by simp))]
    rw [ih (fun q hq => h q (by simp [hq]))]

/-- A service loop over services none of which owns the group `g` contributes
no request to that group. -/
theorem requestsOfGroup_serviceLoop_nil (env : Env) (wsID : String)
    (file : FileDescriptorProto) (g : String) :
    ∀ (ss : List ServiceDescriptorProto) (r : RandState),
      (∀ s' ∈ ss, "request_group-" ++ s'.name ≠ g) →
      requestsOfGroup (serviceLoop env wsID file ss r).1 g = [] := by
  intro ss
  induction ss with
  | nil => intro r _; rfl
  | cons s' ss ih =>
    intro r hne
    simp only [serviceLoop]
    rw [requestsOfGroup_cons_group, requestsOfGroup_append]
    rw [requestsOfGroup_requests_none _ _ (fun q hq => by
      have := methodLoop_parentId env file s' ("request_group-" ++ s'.name) s'.method r q
        ((sortRequests_perm _).mem_iff.mp hq)
      rw [this]
      simp [hne s' (by simp)])]
    rw [ih _ (fun x hx => hne x (by simp [hx]))]
    rfl

/-- Claim C6: within every request group of the output resource list, the
request resources appear sorted by their ID in ascending (lexicographic
string) order, whatever the declaration order of the methods in the schema
file (the statement quantifies over arbitrary method lists and an arbitrary
incoming generator state).  Service names are assumed pairwise distinct, as
protoc guarantees for one file — with a duplicated name two services would
share one group ID. -/
theorem claimC6 (env : Env) (wsID : String) (file : FileDescriptorProto)
    (r : RandState) (s : ServiceDescriptorProto)
    (hs : s ∈ file.service)
    (hnd : (file.service.map (fun x => x.name)).Nodup) :
    List.Sorted (fun a b => a.resource.id ≤ b.resource.id)
      (requestsOfGroup (generateMethods env wsID file r).1
        ("request_group-" ++ s.name)) := by
  unfold generateMethods
  revert r hs hnd
  induction file.service with
  | nil => intro r hs _; exact absurd hs (List.not_mem_nil s)
  | cons s' ss ih =>
    intro r hs hnd
    simp only [List.map_cons, List.nodup_cons, List.mem_map] at hnd
    rcases List.mem_cons.mp hs with rfl | hmem
    · simp only [serviceLoop]
      rw [requestsOfGroup_cons_group, requestsOfGroup_append]
      rw [requestsOfGroup_requests_all _ _ (fun q hq =>
        methodLoop_parentId env file s _ s.method r q
          ((sortRequests_perm _).mem_iff.mp hq))]
      rw [requestsOfGroup_serviceLoop_nil env wsID file _ ss _ (fun x hx hgid => by
        exact hnd.1 ⟨x, hx, strAppend_left_cancel hgid⟩)]
      rw [List.append_nil]
      exact sortRequests_sorted _
    · have hname : s'.name ≠ s.name := fun he =>
        hnd.1 ⟨s, hmem, he.symm⟩
      simp only [serviceLoop]
      rw [requestsOfGroup_cons_group, requestsOfGroup_append]
      rw [requestsOfGroup_requests_none _ _ (fun q hq => by
        have := methodLoop_parentId env file s' ("request_group-" ++ s'.name) s'.method r q
          ((sortRequests_perm _).mem_iff.mp hq)
        rw [this]
        intro hcon
        exact hname (strAppend_left_cancel (Option.some.inj hcon)))]
      rw [List.nil_append]
      exact ih _ hmem hnd.2

/-- Service with methods declared out of alphabetical order, for the C6
witness. -/
def svcC6 : ServiceDescriptorProto :=
  { name := "Alpha",
    method := [⟨"Zulu", ".pkg.In"⟩, ⟨"Echo", ".pkg.In"⟩, ⟨"Mike", ".pkg.In"⟩] }

/-- File with two services for the C6 witness. -/
def fileC6 : FileDescriptorProto :=
  { name := "c.proto", package := "pkg",
    service := [svcC6, { name := "Beta", method := [] }], enumType := [] }

/-- Environment for the C6 witness. -/
def envC6 : Env :=
  { registry := fun _ => none,
    methodComments := fun _ _ _ => "",
    parseConfig := fun _ => .error "unused",
    camelCase := fun s => s,
    formatRFC3339 := fun _ => "",
    formatFloat4 := fun _ => "" }

/-- Witness for C6 on a service whose methods are declared unsorted. -/
theorem claimC6_witness :
    (svcC6 ∈ fileC6.service ∧
      (fileC6.service.map (fun x => x.name)).Nodup) ∧
    List.Sorted (fun a b => a.resource.id ≤ b.resource.id)
      (requestsOfGroup (generateMethods envC6 "ws" fileC6 (mkRand 1)).1
        ("request_group-" ++ svcC6.name)) :=
  ⟨⟨by decide, by decide⟩,
   claimC6 envC6 "ws" fileC6 (mkRand 1) svcC6 (by decide) (by decide)⟩

/-! ### C4 — uniqueness of resource IDs in one export document -/


/-- Two strings with incomparable literal prefixes differ, whatever follows. -/
theorem strAppend_ne (p q x y : String)
    (h1 : ¬ p.data <+: q.data) (h2 : ¬ q.data <+: p.data) : p ++ x ≠ q ++ y := by
  intro h
  rw [String.ext_iff, String.data_append, String.data_append] at h
  have hp : p.data <+: p.data ++ x.data := ⟨x.data, rfl⟩
  have hq : q.data <+: p.data ++ x.data := by
    rw [h]; exact ⟨y.data, rfl⟩
  rcases List.prefix_or_prefix_of_prefix hp hq with hpq | hqp
  · exact h1 hpq
  · exact h2 hqp

/-- Specialization of `strAppend_ne` with a bare right-hand string. -/
theorem strAppend_ne_str (p q x : String)
    (h1 : ¬ p.data <+: q.data) (h2 : ¬ q.data <+: p.data) : p ++ x ≠ q := by
  intro h
  exact strAppend_ne p q x "" h1 h2 (by rw [String.append_empty]; exact h)

/-- Splitting at a separator character absent from both left parts is
unambiguous. -/
theorem hyphenSplit_inj : ∀ (a b m n : List Char), '-' ∉ a → '-' ∉ b →
    a ++ '-' :: m = b ++ '-' :: n → a = b ∧ m = n := by
  intro a
  induction a with
  | nil =>
    intro b m n _ hb h
    cases b with
    | nil => simpa using h
    | cons c bs =>
      simp only [List.nil_append, List.cons_append, List.cons.injEq] at h
      exact absurd (h.1 ▸ List.mem_cons_self c bs) hb
  | cons c as ih =>
    intro b m n ha hb h
    cases b with
    | nil =>
      simp only [List.cons_append, List.nil_append, List.cons.injEq] at h
      exact absurd (h.1 ▸ List.mem_cons_self c as) ha
    | cons d bs =>
      simp only [List.cons_append, List.cons.injEq] at h
      obtain ⟨rfl, h2⟩ := h
      have := ih bs m n (fun hx => ha (List.mem_cons_of_mem _ hx))
        (fun hx => hb (List.mem_cons_of_mem _ hx)) h2
      exact ⟨by rw [this.1], this.2⟩

/-- Request IDs built over hyphen-free service names determine the service
and method names. -/
theorem reqID_inj {s1 s2 m1 m2 : String}
    (h1 : '-' ∉ s1.data) (h2 : '-' ∉ s2.data)
    (h : "request-" ++ (s1 ++ ("-" ++ m1)) = "request-" ++ (s2 ++ ("-" ++ m2))) :
    s1 = s2 ∧ m1 = m2 := by
  have h' := strAppend_left_cancel h
  rw [String.ext_iff] at h'
  simp only [String.data_append] at h'
  have hd : s1.data ++ '-' :: m1.data = s2.data ++ '-' :: m2.data := by
    simpa using h'
  have := hyphenSplit_inj s1.data s2.data m1.data m2.data h1 h2 hd
  exact ⟨String.ext this.1, String.ext this.2⟩



/-- ID of the request generated for method `m` of service `s`. -/
def reqID (s : ServiceDescriptorProto) (m : MethodDescriptorProto) : String :=
  "request-" ++ (s.name ++ ("-" ++ m.name))

/-- ID of the request group generated for service `s`. -/
def groupID (s : ServiceDescriptorProto) : String :=
  "request_group-" ++ s.name

/-- The IDs one service contributes: its group's, then its requests'. -/
def serviceBlockIDs (s : ServiceDescriptorProto) : List String :=
  groupID s :: s.method.map (fun m => reqID s m)

/-- All resource IDs of a produced export document, in order. -/
def exportIDs (rf : RespFile) : List String :=
  rf.content.resources.map (fun it => it.resource.id)

/-- The request IDs produced by the method loop, in declaration order. -/
theorem methodLoop_ids (env : Env) (file : FileDescriptorProto)
    (s : ServiceDescriptorProto) (gid : String)
    (ms : List MethodDescriptorProto) (r : RandState) :
    ((methodLoop env file s gid ms r).1).map (fun q => q.resource.id) =
      ms.map (fun m => reqID s m) := by
  induction ms generalizing r with
  | nil => rfl
  | cons m ms ih => simp [methodLoop, ih, reqID]

/-- The IDs of the service loop's resources are a permutation of the
per-service canonical blocks (sorting permutes the requests). -/
theorem serviceLoop_ids_perm (env : Env) (wsID : String)
    (file : FileDescriptorProto) :
    ∀ (ss : List ServiceDescriptorProto) (r : RandState),
      (((serviceLoop env wsID file ss r).1).map (fun it => it.resource.id)).Perm
        (ss.flatMap serviceBlockIDs) := by
  intro ss
  induction ss with
  | nil => intro r; rfl
  | cons s ss ih =>
    intro r
    simp only [serviceLoop, List.map_cons, List.map_append, List.map_map,
      List.flatMap_cons]
    refine List.Perm.cons _ ?_
    refine List.Perm.append ?_ (ih _)
    have h1 : ((sortRequests (methodLoop env file s ("request_group-" ++ s.name)
          s.method r).1).map
        (fun x => (ResourceItem.resource (ResourceItem.request x)).id)).Perm
        (((methodLoop env file s ("request_group-" ++ s.name) s.method r).1).map
          (fun q => q.resource.id)) :=
      (sortRequests_perm _).map _
    rw [methodLoop_ids] at h1
    exact h1



/-- One service's ID block has no duplicates when its method names are
pairwise distinct. -/
theorem serviceBlockIDs_nodup (s : ServiceDescriptorProto)
    (hm : (s.method.map (fun m => m.name)).Nodup) :
    (serviceBlockIDs s).Nodup := by
  unfold serviceBlockIDs
  rw [List.nodup_cons]
  constructor
  · intro hmem
    rcases List.mem_map.mp hmem with ⟨m, _, hid⟩
    exact strAppend_ne "request-" "request_group-" (s.name ++ ("-" ++ m.name))
      s.name (by decide) (by decide) hid
  · have : s.method.map (fun m => reqID s m) =
        (s.method.map (fun m => m.name)).map
          (fun nm => "request-" ++ (s.name ++ ("-" ++ nm))) := by
      rw [List.map_map]; rfl
    rw [this]
    refine hm.map ?_
    intro a b h
    have h1 := strAppend_left_cancel h
    have h2 := strAppend_left_cancel h1
    exact strAppend_left_cancel h2

/-- ID blocks of services with distinct hyphen-free names are disjoint. -/
theorem serviceBlockIDs_disjoint (s1 s2 : ServiceDescriptorProto)
    (hne : s1.name ≠ s2.name)
    (hh1 : '-' ∉ s1.name.data) (hh2 : '-' ∉ s2.name.data) :
    List.Disjoint (serviceBlockIDs s1) (serviceBlockIDs s2) := by
  intro x hx1 hx2
  unfold serviceBlockIDs at hx1 hx2
  rcases List.mem_cons.mp hx1 with rfl | hx1
  · rcases List.mem_cons.mp hx2 with hg | hx2
    · exact hne (strAppend_left_cancel hg)
    · rcases List.mem_map.mp hx2 with ⟨m, _, hid⟩
      exact strAppend_ne "request_group-" "request-" s1.name
        (s2.name ++ ("-" ++ m.name)) (by decide) (by decide) hid.symm
  · rcases List.mem_map.mp hx1 with ⟨m1, _, hid1⟩
    rcases List.mem_cons.mp hx2 with hg | hx2
    · rw [← hid1] at hg
      exact strAppend_ne "request-" "request_group-" (s1.name ++ ("-" ++ m1.name))
        s2.name (by decide) (by decide) hg
    · rcases List.mem_map.mp hx2 with ⟨m2, _, hid2⟩
      rw [← hid1] at hid2
      exact hne (reqID_inj hh1 hh2 hid2.symm).1



/-- The canonical ID inventory of one export document is duplicate-free:
the workspace ID, the environment IDs (Base, configured, two localhost
defaults) and every request-group and request ID are pairwise distinct, given
distinct configured names avoiding the reserved IDs and generated prefixes,
distinct hyphen-free service names, and per-service distinct method names. -/
theorem canonical_nodup (file : FileDescriptorProto) (cfg : Config)
    (hc1 : (cfg.environments.map Prod.fst).Nodup)
    (hc2 : ∀ p ∈ cfg.environments,
      p.1 ≠ "BaseEnvironment" ∧ p.1 ≠ "LocalhostHttps" ∧ p.1 ≠ "LocalhostHttp" ∧
      ¬("workspace-".data <+: p.1.data) ∧ ¬("request_group-".data <+: p.1.data) ∧
      ¬("request-".data <+: p.1.data))
    (hs1 : (file.service.map (fun x => x.name)).Nodup)
    (hs2 : ∀ s ∈ file.service, '-' ∉ s.name.data)
    (hm : ∀ s ∈ file.service, (s.method.map (fun m => m.name)).Nodup) :
    (("workspace-" ++ (file.name ++ ("-" ++ file.package))) ::
      (("BaseEnvironment" :: (cfg.environments.map Prod.fst ++
          ["LocalhostHttps", "LocalhostHttp"])) ++
        file.service.flatMap serviceBlockIDs)).Nodup := by
  rw [List.nodup_cons]
  constructor
  · -- the workspace ID collides with nothing
    intro hmem
    rcases List.mem_append.mp hmem with hB | hC
    · rcases List.mem_cons.mp hB with hb | hB
      · exact strAppend_ne_str "workspace-" "BaseEnvironment"
          (file.name ++ ("-" ++ file.package)) (by decide) (by decide) hb
      · rcases List.mem_append.mp hB with hn | hl
        · rcases List.mem_map.mp hn with ⟨p, hp, hid⟩
          exact (hc2 p hp).2.2.2.1 (by
            rw [hid, String.data_append]
            exact ⟨(file.name ++ ("-" ++ file.package)).data, rfl⟩)
        · rcases List.mem_cons.mp hl with hb | hl
          · exact strAppend_ne_str "workspace-" "LocalhostHttps"
              (file.name ++ ("-" ++ file.package)) (by decide) (by decide) hb
          · rcases List.mem_cons.mp hl with hb | hl
            · exact strAppend_ne_str "workspace-" "LocalhostHttp"
                (file.name ++ ("-" ++ file.package)) (by decide) (by decide) hb
            · simp at hl
    · rcases List.mem_flatMap.mp hC with ⟨s, _, hbl⟩
      rcases List.mem_cons.mp hbl with hb | hb
      · exact strAppend_ne "workspace-" "request_group-"
          (file.name ++ ("-" ++ file.package)) s.name (by decide) (by decide) hb
      · rcases List.mem_map.mp hb with ⟨m, _, hid⟩
        exact strAppend_ne "workspace-" "request-"
          (file.name ++ ("-" ++ file.package)) (s.name ++ ("-" ++ m.name))
          (by decide) (by decide) hid.symm
  · rw [List.nodup_append]
    refine ⟨?_, ?_, ?_⟩
    · -- environment IDs are pairwise distinct
      rw [List.nodup_cons]
      constructor
      · intro hmem
        rcases List.mem_append.mp hmem with hn | hl
        · rcases List.mem_map.mp hn with ⟨p, hp, hid⟩
          exact (hc2 p hp).1 hid
        · simp at hl
      · rw [List.nodup_append]
        refine ⟨hc1, by decide, ?_⟩
        intro x hx hx2
        rcases List.mem_map.mp hx with ⟨p, hp, hid⟩
        rcases List.mem_cons.mp hx2 with hb | hb
        · exact (hc2 p hp).2.1 (hid ▸ hb)
        · rcases List.mem_cons.mp hb with hb | hb
          · exact (hc2 p hp).2.2.1 (hid ▸ hb)
          · simp at hb
    · -- method-resource IDs are pairwise distinct
      rw [List.nodup_flatMap]
      constructor
      · intro s hs
        exact serviceBlockIDs_nodup s (hm s hs)
      · have hpw : file.service.Pairwise (fun a b => a.name ≠ b.name) :=
          List.pairwise_map.mp hs1
        refine hpw.imp_of_mem ?_
        intro a b ha hb hne
        exact serviceBlockIDs_disjoint a b hne (hs2 a ha) (hs2 b hb)
    · -- environment IDs never collide with group or request IDs
      intro x hxB hxC
      rcases List.mem_flatMap.mp hxC with ⟨s, _, hbl⟩
      have hx2 : x = "request_group-" ++ s.name ∨
          ∃ m : MethodDescriptorProto,
            x = "request-" ++ (s.name ++ ("-" ++ m.name)) := by
        rcases List.mem_cons.mp hbl with hb | hb
        · exact Or.inl hb
        · rcases List.mem_map.mp hb with ⟨m, _, hid⟩
          exact Or.inr ⟨m, hid.symm⟩
      rcases List.mem_cons.mp hxB with hb | hB
      · rcases hx2 with hg | ⟨m, hg⟩
        · exact strAppend_ne_str "request_group-" "BaseEnvironment" s.name
            (by decide) (by decide) (hb ▸ hg.symm ▸ rfl)
        · exact strAppend_ne_str "request-" "BaseEnvironment"
            (s.name ++ ("-" ++ m.name)) (by decide) (by decide) (hb ▸ hg.symm ▸ rfl)
      · rcases List.mem_append.mp hB with hn | hl
        · rcases List.mem_map.mp hn with ⟨p, hp, hid⟩
          rcases hx2 with hg | ⟨m, hg⟩
          · exact (hc2 p hp).2.2.2.2.1 (by
              rw [hid, hg, String.data_append]
              exact ⟨s.name.data, rfl⟩)
          · exact (hc2 p hp).2.2.2.2.2 (by
              rw [hid, hg, String.data_append]
              exact ⟨(s.name ++ ("-" ++ m.name)).data, rfl⟩)
        · rcases List.mem_cons.mp hl with hb | hl
          · rcases hx2 with hg | ⟨m, hg⟩
            · exact strAppend_ne_str "request_group-" "LocalhostHttps" s.name
                (by decide) (by decide) (hb ▸ hg.symm ▸ rfl)
            · exact strAppend_ne_str "request-" "LocalhostHttps"
                (s.name ++ ("-" ++ m.name)) (by decide) (by decide) (hb ▸ hg.symm ▸ rfl)
          · rcases List.mem_cons.mp hl with hb | hl
            · rcases hx2 with hg | ⟨m, hg⟩
              · exact strAppend_ne_str "request_group-" "LocalhostHttp" s.name
                  (by decide) (by decide) (hb ▸ hg.symm ▸ rfl)
              · exact strAppend_ne_str "request-" "LocalhostHttp"
                  (s.name ++ ("-" ++ m.name)) (by decide) (by decide) (hb ▸ hg.symm ▸ rfl)
            · simp at hl



/-- The configuration `generateEnvironment` works with: the decoded
parameter when present and non-empty, the empty configuration otherwise. -/
def configOf (dec : String → Except String Config) (param : Option String) :
    Except String Config :=
  match param with
  | some p => if 0 < p.length then dec p else .ok ⟨[]⟩
  | none => .ok ⟨[]⟩

/-- The environment list produced for a decoded configuration. -/
def envList (workspaceID : String) (cfg : Config) : List Environment :=
  { resource :=
      { type := "environment", id := "BaseEnvironment",
        parentId := some workspaceID, name := "Base" },
    data := [] } ::
  (cfg.environments.map (fun nu =>
    { resource :=
        { type := "environment", id := nu.1,
          parentId := some "BaseEnvironment", name := nu.1 },
      data := [("base_url", nu.2)] }) ++
   [{ resource :=
        { type := "environment", id := "LocalhostHttps",
          parentId := some "BaseEnvironment", name := "Localhost - Https" },
      data := [("base_url", "https://localhost:8000")] },
    { resource :=
        { type := "environment", id := "LocalhostHttp",
          parentId := some "BaseEnvironment", name := "Localhost - Http" },
      data := [("base_url", "http://localhost:8000")] }])

/-- With a well-formed (or absent) configuration, `generateEnvironment`
produces exactly `envList`. -/
theorem generateEnvironment_ok (dec : String → Except String Config)
    (workspaceID : String) (param : Option String) (cfg : Config)
    (h : configOf dec param = .ok cfg) :
    generateEnvironment dec workspaceID param = .ok (envList workspaceID cfg) := by
  cases param with
  | none =>
    simp only [configOf, Except.ok.injEq] at h
    subst h
    rfl
  | some p =>
    simp only [configOf] at h
    by_cases hl : 0 < p.length
    · rw [if_pos hl] at h
      simp only [generateEnvironment, hl, if_pos, reduceIte, h]
      rfl
    · rw [if_neg hl] at h
      simp only [Except.ok.injEq] at h
      subst h
      simp only [generateEnvironment, hl, if_neg, reduceIte]
      rfl

/-- The environment IDs: Base, the configured names, the two localhost
defaults. -/
theorem envList_ids (workspaceID : String) (cfg : Config) :
    (envList workspaceID cfg).map (fun e => e.resource.id) =
      "BaseEnvironment" :: (cfg.environments.map Prod.fst ++
        ["LocalhostHttps", "LocalhostHttp"]) := by
  simp [envList, List.map_map]



/-- Claim C4, amended: all resource IDs of a produced export document — the
workspace, every environment (Base, configured, the two localhost defaults),
every request group and every request — are pairwise distinct, provided the
configured environment names are pairwise distinct, avoid the reserved IDs
`BaseEnvironment` / `LocalhostHttps` / `LocalhostHttp` and do not start with
`workspace-`, `request_group-` or `request-`; service names are pairwise
distinct and hyphen-free; and each service's method names are pairwise
distinct.  (Unrestricted, the claim is false: the code never guards against
collisions — see the counterexample.) -/
theorem claimC4 (env : Env) (file : FileDescriptorProto) (param : Option String)
    (r r' : RandState) (cfg : Config) (rf : RespFile)
    (hparse : configOf env.parseConfig param = .ok cfg)
    (hgen : generate env file param r = .ok (some rf, r'))
    (hc1 : (cfg.environments.map Prod.fst).Nodup)
    (hc2 : ∀ p ∈ cfg.environments,
      p.1 ≠ "BaseEnvironment" ∧ p.1 ≠ "LocalhostHttps" ∧ p.1 ≠ "LocalhostHttp" ∧
      ¬("workspace-".data <+: p.1.data) ∧ ¬("request_group-".data <+: p.1.data) ∧
      ¬("request-".data <+: p.1.data))
    (hs1 : (file.service.map (fun x => x.name)).Nodup)
    (hs2 : ∀ s ∈ file.service, '-' ∉ s.name.data)
    (hm : ∀ s ∈ file.service, (s.method.map (fun m => m.name)).Nodup) :
    (exportIDs rf).Nodup := by
  by_cases hlen : file.service.length = 0
  · unfold generate at hgen
    rw [if_pos hlen] at hgen
    simp at hgen
  · unfold generate at hgen
    rw [if_neg hlen] at hgen
    simp only [] at hgen
    rw [generateEnvironment_ok env.parseConfig (generateWorkspace file).2 param cfg
      hparse] at hgen
    simp only [Except.ok.injEq, Prod.mk.injEq, Option.some.injEq] at hgen
    obtain ⟨rfl, -⟩ := hgen
    unfold exportIDs
    simp only [List.map_cons, List.map_append, List.map_map]
    refine List.Perm.nodup ?_
      (canonical_nodup file cfg hc1 hc2 hs1 hs2 hm)
    refine List.Perm.cons _ ?_
    refine List.Perm.append ?_
      ((serviceLoop_ids_perm env (generateWorkspace file).2 file
        file.service r).symm)
    rw [show List.map ((fun it => it.resource.id) ∘ ResourceItem.environment)
        (envList (generateWorkspace file).2 cfg) =
      List.map (fun e => e.resource.id)
        (envList (generateWorkspace file).2 cfg) from rfl]
    rw [envList_ids]


/-- Environment whose decoder accepts a configuration naming an environment
`LocalhostHttp`, colliding with the built-in default's ID. -/
def envC4 : Env :=
  { registry := fun _ => none,
    methodComments := fun _ _ _ => "",
    parseConfig := fun p =>
      if p = "CFG" then .ok ⟨[("LocalhostHttp", "http://collide.example")]⟩
      else .error "bad",
    camelCase := fun s => s,
    formatRFC3339 := fun _ => "",
    formatFloat4 := fun _ => "" }

/-- One-service file for the C4 counterexample. -/
def fileC4 : FileDescriptorProto :=
  { name := "x.proto", package := "pkg",
    service := [{ name := "Svc", method := [] }], enumType := [] }

/-- The resource IDs the counterexample document carries — `LocalhostHttp`
appears twice. -/
def idsC4 : List String :=
  ["workspace-x.proto-pkg", "BaseEnvironment", "LocalhostHttp",
   "LocalhostHttps", "LocalhostHttp", "request_group-Svc"]

unseal List.merge List.mergeSort in
/-- Counterexample to C4 as stated: a well-formed configuration that names
an environment `LocalhostHttp` yields an export document whose ID list
contains `LocalhostHttp` twice. -/
theorem claimC4_counterexample :
    (generate envC4 fileC4 (some "CFG") (mkRand 1)).map
        (fun res => res.1.map exportIDs) = .ok (some idsC4) ∧
    ¬ idsC4.Nodup :=
  ⟨rfl, by decide⟩

/-- Environment with a benign configuration for the C4 witness. -/
def envC4w : Env :=
  { registry := fun _ => none,
    methodComments := fun _ _ _ => "",
    parseConfig := fun p =>
      if p = "CFG" then .ok ⟨[("Staging", "http://staging.example")]⟩
      else .error "bad",
    camelCase := fun s => s,
    formatRFC3339 := fun _ => "",
    formatFloat4 := fun _ => "" }

/-- One-service file for the C4 witness. -/
def fileC4w : FileDescriptorProto :=
  { name := "y.proto", package := "pkg",
    service := [{ name := "Svc", method := [] }], enumType := [] }

/-- Decoded configuration of the C4 witness. -/
def cfgC4w : Config := ⟨[("Staging", "http://staging.example")]⟩

unseal List.merge List.mergeSort in
/-- Witness for the amended C4: a concrete well-behaved file and
configuration produce a document with pairwise distinct IDs. -/
theorem claimC4_witness :
    (configOf envC4w.parseConfig (some "CFG") = .ok cfgC4w ∧
     (cfgC4w.environments.map Prod.fst).Nodup ∧
     (fileC4w.service.map (fun x => x.name)).Nodup ∧
     (∀ s ∈ fileC4w.service, '-' ∉ s.name.data)) ∧
    ∃ rf r', generate envC4w fileC4w (some "CFG") (mkRand 1) = .ok (some rf, r') ∧
      (exportIDs rf).Nodup :=
  ⟨⟨rfl, by decide, by decide, by decide⟩,
   _, _, rfl,
   claimC4 envC4w fileC4w (some "CFG") (mkRand 1) _ cfgC4w _ rfl rfl
     (by decide) (by decide) (by decide) (by decide) (by decide)⟩

end ProtoToInsomnia
